import Mathlib

/-
Verification of the photo-validation pipeline in photo/validator_api.py.

The pipeline arithmetic is embedded shallowly: Python ints become Int or
Nat, Python floor division becomes Int floor division (which agrees with
Python), and the float expressions `h * 0.9`, `new_h * (240 / 288)`,
`new_w / (240 / 288)` and `TARGET_H * 1.2` are modelled by the exact
rational values they compute, with Python int() truncation on
nonnegative values rendered as floor division: `(h * 9) / 10`,
`(new_h * 240) / 288`, `(new_w * 288) / 240`, and the comparison
`h * 10 > 288 * 12`.  External PIL operations (LANCZOS resampling, JPEG
encoding) are uninterpreted parameters of the pipeline; PIL's crop of an
out-of-bounds box pads with black, modelled by pxGray returning 0
outside the raster.  The while loop of jpg_under_size is embedded with
an explicit fuel of 61 = the initial size of the quality interval
35..95; the fuel-stability theorem for claim C9 shows any fuel of at
least 61 yields the same result, so the embedding computes exactly what
the unbounded loop computes.
-/

namespace PhotoValidator

/-- Final target width in pixels, from the module config. -/
def TARGET_W : Nat := 240

/-- Final target height in pixels, from the module config. -/
def TARGET_H : Nat := 288

/-- Byte budget for the final JPEG, from the module config (default 50 KB). -/
def MAX_BYTES : Nat := 50 * 1024

/-- Maximum original upload size; the default config sets it to MAX_BYTES. -/
def MAX_ORIGINAL_BYTES : Nat := MAX_BYTES

/-- Border thickness, in pixels, that the background check inspects. -/
def BORDER_PIXELS : Nat := 12

/-- Grayscale brightness at or above which a pixel counts as white. -/
def WHITE_THRESHOLD : Nat := 220

/-- Minimum fraction of white border pixels for an acceptable background. -/
def BACKGROUND_MIN_WHITE : ℚ := 56 / 100

/-- Crop rectangle, mirroring the 4-tuple passed to PIL Image.crop:
left, top, right, bottom in pixel coordinates, origin top-left. -/
structure CropBox where
  left : Int
  top : Int
  right : Int
  bottom : Int
deriving DecidableEq

/-- Crop window computed by passport_crop from the raster size alone,
line for line from the source: crop_factor is 0.9 (modelled by the
numerator 9 over denominator 10) when h exceeds TARGET_H * 1.2 and 1.0
otherwise; new_h is at least TARGET_H; new_w derives from new_h by the
target ratio; a width-limited fallback recomputes new_h from w when
new_w would exceed w; left is centered and clamped at 0; top is the
centered vertical offset, 0 when there is no positive slack. -/
def passport_crop_box (w h : Int) : CropBox :=
  let crop_factor10 : Int := if (TARGET_H : Int) * 12 < h * 10 then 9 else 10
  let h1 : Int := max ((h * crop_factor10) / 10) (TARGET_H : Int)
  let w1 : Int := (h1 * (TARGET_W : Int)) / (TARGET_H : Int)
  let new_w : Int := if w < w1 then w else w1
  let new_h : Int := if w < w1 then (w * (TARGET_H : Int)) / (TARGET_W : Int) else h1
  let lf : Int := max 0 ((w - new_w) / 2)
  let max_top : Int := h - new_h
  let tp : Int := if 0 < max_top then max_top / 2 else 0
  ⟨lf, tp, lf + new_w, tp + new_h⟩

/-- Decoded, orientation-normalized RGB raster: width, height, and the
pixel grid as a function from coordinates to an RGB triple of 8-bit
channel values. -/
structure Raster where
  w : Nat
  h : Nat
  px : Nat → Nat → Nat × Nat × Nat

/-- PIL grayscale conversion of one RGB pixel by the ITU-R 601-2
luminance transform L = (299 R + 587 G + 114 B) / 1000. -/
def toGray (c : Nat × Nat × Nat) : Nat :=
  (299 * c.1 + 587 * c.2.1 + 114 * c.2.2) / 1000

/-- Grayscale sample at signed coordinates; PIL crop pads regions outside
the raster with black, so out-of-range coordinates read as 0. -/
def pxGray (img : Raster) (x y : Int) : Nat :=
  if 0 ≤ x ∧ x < (img.w : Int) ∧ 0 ≤ y ∧ y < (img.h : Int) then
    toGray (img.px x.toNat y.toNat)
  else 0

/-- RGB sample at signed coordinates, with the same black padding rule. -/
def pxRGB (img : Raster) (x y : Int) : Nat × Nat × Nat :=
  if 0 ≤ x ∧ x < (img.w : Int) ∧ 0 ≤ y ∧ y < (img.h : Int) then
    img.px x.toNat y.toNat
  else (0, 0, 0)

/-- Border thickness actually inspected, from border_white_ratio:
b = max(2, min(BORDER_PIXELS, w // 4, h // 4)). -/
def border_b (w h : Nat) : Nat :=
  max 2 (min BORDER_PIXELS (min (w / 4) (h / 4)))

/-- Grayscale samples of the crop region with corners (l, t) and (r, b),
row by row, as PIL getdata lists them. -/
def regionGrays (img : Raster) (l t r b : Int) : List Nat :=
  (List.range (b - t).toNat).flatMap fun (dy : Nat) =>
    (List.range (r - l).toNat).map fun (dx : Nat) =>
      pxGray img (l + (dx : Int)) (t + (dy : Int))

/-- Fraction of the listed samples that reach WHITE_THRESHOLD; an empty
region yields 0, guarding the division as frac_white does. -/
def frac_white (xs : List Nat) : ℚ :=
  if xs.length = 0 then 0
  else ((xs.countP fun v => decide (WHITE_THRESHOLD ≤ v) : Nat) : ℚ) / ((xs.length : Nat) : ℚ)

/-- Mean, over the four border strips (top, bottom, left, right), of the
per-strip fraction of white pixels, as computed by border_white_ratio. -/
def border_white_ratio (img : Raster) : ℚ :=
  let b : Int := (border_b img.w img.h : Nat)
  let vals : List ℚ :=
    [frac_white (regionGrays img 0 0 (img.w : Int) b),
     frac_white (regionGrays img 0 ((img.h : Int) - b) (img.w : Int) (img.h : Int)),
     frac_white (regionGrays img 0 0 b (img.h : Int)),
     frac_white (regionGrays img ((img.w : Int) - b) 0 (img.w : Int) (img.h : Int))]
  vals.sum / (vals.length : ℚ)

/-- Raster produced by passport_crop: the window's dimensions, with
pixels read through the window offset and PIL's black padding. -/
def passport_crop (img : Raster) : Raster :=
  let box := passport_crop_box (img.w : Int) (img.h : Int)
  { w := (box.right - box.left).toNat
    h := (box.bottom - box.top).toNat
    px := fun x y => pxRGB img (box.left + (x : Int)) (box.top + (y : Int)) }

/-- Binary-search loop of jpg_under_size over an abstract encoded-size
function enc from JPEG quality to byte count.  One fuel unit per loop
iteration; fuel 61 covers the whole initial interval 35..95, and the
fuel-stability theorem shows larger fuel changes nothing, so this is the
unbounded Python while loop.  The probe order, the best-so-far record
and the bound updates follow the source line for line. -/
def searchLoop (enc : Int → Nat) (limit : Nat) : Nat → Int → Int → Option Int → Option Int
  | 0, _, _, best => best
  | fuel + 1, lo, hi, best =>
    if lo ≤ hi then
      if enc ((lo + hi) / 2) ≤ limit then
        searchLoop enc limit fuel ((lo + hi) / 2 + 1) hi (some ((lo + hi) / 2))
      else
        searchLoop enc limit fuel lo ((lo + hi) / 2 - 1) best
    else best

/-- Quality of the encoding returned by jpg_under_size: the best probe
recorded by the binary search over 35..95, or the fallback re-encode at
quality 35 when no probe fit the limit.  The returned byte string of the
source is enc applied to this quality. -/
def jpg_under_size_q (enc : Int → Nat) (limit : Nat) : Int :=
  match searchLoop enc limit 61 35 95 none with
  | some q => q
  | none => 35

/-- One human-readable validation failure reason; the concrete Spanish
message strings of the source are abstracted to their identities. -/
inductive Issue where
  | invalidFile
  | backgroundNotWhite
  | originalTooLarge
  | genericRejection
deriving DecidableEq

/-- Diagnostic dictionary assembled by run_pipeline. -/
structure PipelineInfo where
  issues : List Issue
  width : Nat
  height : Nat
  bytes : Nat
  white_ratio : ℚ
  background_ok : Bool

/-- Core pipeline over abstract PIL resampling and JPEG encoding:
background check, passport crop, resize to the target dimensions, and
size-bounded compression.  Returns the encoded byte count (standing for
the byte string) together with the info dictionary. -/
def run_pipeline (resample : Raster → Nat → Nat → Raster) (encSize : Raster → Int → Nat)
    (pil_img : Raster) (require_white_bg : Bool) : Nat × PipelineInfo :=
  let white_ratio := border_white_ratio pil_img
  let background_ok : Bool := decide (BACKGROUND_MIN_WHITE ≤ white_ratio)
  let issues : List Issue :=
    if require_white_bg = true ∧ background_ok = false then [Issue.backgroundNotWhite] else []
  let cropped := passport_crop pil_img
  let out_img := resample cropped TARGET_W TARGET_H
  let q := jpg_under_size_q (encSize out_img) MAX_BYTES
  let jpg_len := encSize out_img q
  (jpg_len, ⟨issues, TARGET_W, TARGET_H, jpg_len, white_ratio, background_ok⟩)

/-- Fields of the JSON response that the claims speak about. -/
structure EndpointResult where
  ok : Bool
  issues : List Issue
  bytes : Nat
deriving DecidableEq

/-- The /validate endpoint over an already-attempted decode: a failed
decode short-circuits to the invalid-file response; otherwise the
pipeline runs, the original-size check may prepend an issue, ok demands
no issues and a final size within budget, and a generic rejection issue
is appended when ok is false with an empty issue list.  Persistence and
the upload to remote storage do not affect these fields and are not
modelled. -/
def validate (resample : Raster → Nat → Nat → Raster) (encSize : Raster → Int → Nat)
    (decoded : Option Raster) (original_size : Nat) : EndpointResult :=
  match decoded with
  | none => ⟨false, [Issue.invalidFile], 0⟩
  | some pil_in =>
    let p := run_pipeline resample encSize pil_in true
    let issues1 : List Issue :=
      if MAX_ORIGINAL_BYTES < original_size then Issue.originalTooLarge :: p.2.issues
      else p.2.issues
    let ok : Bool := decide (issues1 = [] ∧ p.1 ≤ MAX_BYTES)
    let issues2 : List Issue :=
      if ok = false ∧ issues1 = [] then issues1 ++ [Issue.genericRejection] else issues1
    ⟨ok, issues2, p.2.bytes⟩

/-- The /fix-photo endpoint over an already-attempted decode: same
pipeline and same ok condition as /validate, but no original-size check
and no appended fallback issue. -/
def fix_photo (resample : Raster → Nat → Nat → Raster) (encSize : Raster → Int → Nat)
    (decoded : Option Raster) : EndpointResult :=
  match decoded with
  | none => ⟨false, [Issue.invalidFile], 0⟩
  | some pil_in =>
    let p := run_pipeline resample encSize pil_in true
    let ok : Bool := decide (p.2.issues = [] ∧ p.1 ≤ MAX_BYTES)
    ⟨ok, p.2.issues, p.2.bytes⟩

/-- Concrete 2 x 2 all-white raster used for concrete instantiations. -/
def tinyWhite : Raster := ⟨2, 2, fun _ _ => (255, 255, 255)⟩

/-- Resampling stand-in that returns its input; the pipeline claims under
test never depend on resampled pixel content. -/
def idResample : Raster → Nat → Nat → Raster := fun r _ _ => r

/-- Encoded-size stand-in that exceeds the byte budget at every quality,
the case the spec calls BudgetUnattainable. -/
def overEnc : Raster → Int → Nat := fun _ _ => MAX_BYTES + 1

/-- Encoded-size stand-in constant at zero bytes, trivially monotone. -/
def zeroEnc : Int → Nat := fun _ => 0

/-- Claim C2 (amended): the crop window's left and top are clamped at 0 and
its right edge never passes the raster's right edge, and whenever the
raster height is at least TARGET_H the window also stays above the bottom
edge; but for shorter rasters the window is not clamped and may extend
below the raster (see the counterexample). -/
theorem passport_crop_box_bounds (w h : Int) (hw : 0 ≤ w) (hh : 0 ≤ h) :
    0 ≤ (passport_crop_box w h).left ∧
    0 ≤ (passport_crop_box w h).top ∧
    (passport_crop_box w h).left ≤ (passport_crop_box w h).right ∧
    (passport_crop_box w h).top ≤ (passport_crop_box w h).bottom ∧
    (passport_crop_box w h).right ≤ w ∧
    ((TARGET_H : Int) ≤ h → (passport_crop_box w h).bottom ≤ h) := by
  simp only [passport_crop_box, TARGET_W, TARGET_H]
  split_ifs <;> simp_all <;> omega

/-- Witness for passport_crop_box_bounds at the concrete raster 300 x 300. -/
theorem passport_crop_box_bounds_witness :
    (0 ≤ (300 : Int) ∧ 0 ≤ (300 : Int)) ∧
    (0 ≤ (passport_crop_box 300 300).left ∧
     0 ≤ (passport_crop_box 300 300).top ∧
     (passport_crop_box 300 300).left ≤ (passport_crop_box 300 300).right ∧
     (passport_crop_box 300 300).top ≤ (passport_crop_box 300 300).bottom ∧
     (passport_crop_box 300 300).right ≤ 300 ∧
     ((TARGET_H : Int) ≤ 300 → (passport_crop_box 300 300).bottom ≤ 300)) :=
  ⟨by decide, passport_crop_box_bounds 300 300 (by decide) (by decide)⟩

/-- Claim C2 is false as stated: on a 300 x 100 raster (shorter than the
target crop window) the computed window reaches bottom coordinate 288,
past the raster's bottom edge at 100, instead of being clamped. -/
theorem passport_crop_box_overflows_short_raster :
    (passport_crop_box 300 100).bottom = 288 ∧
    ¬ (passport_crop_box 300 100).bottom ≤ 100 := by decide

/-- Claim C5 is false as stated: the 500 x 600 raster has exactly the
target 240:288 ratio, yet passport_crop zooms to a 450 x 540 window, so
the output dimensions differ from the input by far more than 1 pixel. -/
theorem passport_crop_zoom_not_noop :
    (500 : Int) * TARGET_H = 600 * TARGET_W ∧
    (passport_crop (⟨500, 600, fun _ _ => (255, 255, 255)⟩ : Raster)).w = 450 ∧
    (passport_crop (⟨500, 600, fun _ _ => (255, 255, 255)⟩ : Raster)).h = 540 ∧
    450 + 1 < 500 := by decide

/-- Claim C5 (amended): for a raster whose width to height ratio already
equals the target 240:288 ratio and whose height does not exceed the zoom
threshold TARGET_H * 1.2, passport_crop is an exact no-op: the crop window
is the full raster and the output dimensions equal the input dimensions. -/
theorem passport_crop_noop_below_zoom (img : Raster)
    (hr : (img.w : Int) * (TARGET_H : Int) = (img.h : Int) * (TARGET_W : Int))
    (hz : (img.h : Int) * 10 ≤ (TARGET_H : Int) * 12) :
    passport_crop_box (img.w : Int) (img.h : Int) = ⟨0, 0, (img.w : Int), (img.h : Int)⟩ ∧
    (passport_crop img).w = img.w ∧ (passport_crop img).h = img.h := by
  have hbox : passport_crop_box (img.w : Int) (img.h : Int) =
      ⟨0, 0, (img.w : Int), (img.h : Int)⟩ := by
    simp only [passport_crop_box, TARGET_W, TARGET_H] at *
    split_ifs <;> simp_all <;> omega
  refine ⟨hbox, ?_, ?_⟩ <;> simp [passport_crop, hbox]

/-- Witness for passport_crop_noop_below_zoom at a concrete 240 x 288 raster. -/
theorem passport_crop_noop_below_zoom_witness :
    (((⟨240, 288, fun _ _ => (255, 255, 255)⟩ : Raster).w : Int) * (TARGET_H : Int) =
        ((⟨240, 288, fun _ _ => (255, 255, 255)⟩ : Raster).h : Int) * (TARGET_W : Int)) ∧
    (passport_crop (⟨240, 288, fun _ _ => (255, 255, 255)⟩ : Raster)).w = 240 ∧
    (passport_crop (⟨240, 288, fun _ _ => (255, 255, 255)⟩ : Raster)).h = 288 :=
  ⟨by decide,
   (passport_crop_noop_below_zoom ⟨240, 288, fun _ _ => (255, 255, 255)⟩
     (by decide) (by decide)).2⟩

/-- Claim C6: for any raster with either dimension at least the target
minimum, the cropped output's dimensions are within one pixel of the
exact target 240:288 ratio, the output is never wider than the raster,
the horizontal margins of the window differ by at most one pixel
(centered), and when the raster is meaningfully taller than the target
(h * 10 beyond TARGET_H * 12) the output height is at most the 0.9
height fraction. -/
theorem passport_crop_ratio_tolerance (img : Raster)
    (hmin : TARGET_W ≤ img.w ∨ TARGET_H ≤ img.h) :
    (((passport_crop img).w : Int) * (TARGET_H : Int) -
       ((passport_crop img).h : Int) * (TARGET_W : Int) < (TARGET_H : Int) ∧
     ((passport_crop img).h : Int) * (TARGET_W : Int) -
       ((passport_crop img).w : Int) * (TARGET_H : Int) < (TARGET_H : Int)) ∧
    (passport_crop img).w ≤ img.w ∧
    ((passport_crop_box (img.w : Int) (img.h : Int)).left -
        ((img.w : Int) - (passport_crop_box (img.w : Int) (img.h : Int)).right) ≤ 1 ∧
     ((img.w : Int) - (passport_crop_box (img.w : Int) (img.h : Int)).right) -
        (passport_crop_box (img.w : Int) (img.h : Int)).left ≤ 1) ∧
    ((TARGET_H : Int) * 12 < (img.h : Int) * 10 →
      ((passport_crop img).h : Int) ≤ (9 * (img.h : Int)) / 10) := by
  simp only [passport_crop, passport_crop_box, TARGET_W, TARGET_H] at *
  split_ifs <;> simp_all <;> omega

/-- Witness for passport_crop_ratio_tolerance at a concrete 300 x 300 raster. -/
theorem passport_crop_ratio_tolerance_witness :
    (TARGET_W ≤ (⟨300, 300, fun _ _ => (255, 255, 255)⟩ : Raster).w ∨
      TARGET_H ≤ (⟨300, 300, fun _ _ => (255, 255, 255)⟩ : Raster).h) ∧
    ((passport_crop (⟨300, 300, fun _ _ => (255, 255, 255)⟩ : Raster)).w ≤ 300 ∧
     ((TARGET_H : Int) * 12 <
         (((⟨300, 300, fun _ _ => (255, 255, 255)⟩ : Raster).h : Nat) : Int) * 10 →
       ((passport_crop (⟨300, 300, fun _ _ => (255, 255, 255)⟩ : Raster)).h : Int) ≤
         (9 * (((⟨300, 300, fun _ _ => (255, 255, 255)⟩ : Raster).h : Nat) : Int)) / 10)) := by
  refine ⟨Or.inl (by decide), ?_⟩
  have h := passport_crop_ratio_tolerance ⟨300, 300, fun _ _ => (255, 255, 255)⟩
    (Or.inl (by decide))
  exact ⟨h.2.1, h.2.2.2⟩

/-- Claim C7 is false as stated: on a 4 x 4 raster the inspected border
thickness is 2, which exceeds one quarter of the smaller dimension. -/
theorem border_b_cap_violated_tiny :
    border_b 4 4 = 2 ∧ ¬ border_b 4 4 ≤ min 4 4 / 4 := by decide

/-- Claim C7 (amended): the inspected border thickness is the fixed
BORDER_PIXELS = 12 capped at one quarter of the smaller dimension but
floored at 2; the quarter cap as claimed holds whenever the smaller
dimension is at least 8, and the thickness is exactly BORDER_PIXELS once
the smaller dimension reaches 48. -/
theorem border_b_bounds (w h : Nat) (hmin : 8 ≤ min w h) :
    border_b w h ≤ min w h / 4 ∧ 2 ≤ border_b w h ∧ border_b w h ≤ BORDER_PIXELS ∧
    (48 ≤ min w h → border_b w h = BORDER_PIXELS) := by
  simp only [border_b, BORDER_PIXELS] at *
  omega

/-- Witness for border_b_bounds at the concrete raster 40 x 40. -/
theorem border_b_bounds_witness :
    8 ≤ min 40 40 ∧
    (border_b 40 40 ≤ min 40 40 / 4 ∧ 2 ≤ border_b 40 40 ∧ border_b 40 40 ≤ BORDER_PIXELS ∧
     (48 ≤ min 40 40 → border_b 40 40 = BORDER_PIXELS)) :=
  ⟨by decide, border_b_bounds 40 40 (by decide)⟩

/-- Helper: frac_white always lies in the unit interval. -/
theorem frac_white_mem_unit (xs : List Nat) : 0 ≤ frac_white xs ∧ frac_white xs ≤ 1 := by
  unfold frac_white
  split_ifs with hlen
  · norm_num
  · constructor
    · positivity
    · rw [div_le_one (by positivity)]
      exact_mod_cast List.countP_le_length _

/-- Claim C10: for every raster with positive dimensions the border white
ratio is total and lies in the closed unit interval; each per-strip
fraction guards its division, and the mean of four unit-interval values
stays in the unit interval. -/
theorem border_white_ratio_unit_interval (img : Raster) (hw : 0 < img.w) (hh : 0 < img.h) :
    0 ≤ border_white_ratio img ∧ border_white_ratio img ≤ 1 := by
  have key : ∀ a b c d : ℚ,
      0 ≤ a ∧ a ≤ 1 → 0 ≤ b ∧ b ≤ 1 → 0 ≤ c ∧ c ≤ 1 → 0 ≤ d ∧ d ≤ 1 →
      0 ≤ [a, b, c, d].sum / (([a, b, c, d].length : Nat) : ℚ) ∧
        [a, b, c, d].sum / (([a, b, c, d].length : Nat) : ℚ) ≤ 1 := by
    intro a b c d ha hb hc hd
    obtain ⟨ha0, ha1⟩ := ha
    obtain ⟨hb0, hb1⟩ := hb
    obtain ⟨hc0, hc1⟩ := hc
    obtain ⟨hd0, hd1⟩ := hd
    simp only [List.sum_cons, List.sum_nil, List.length_cons, List.length_nil, add_zero]
    norm_num
    constructor
    · positivity
    · rw [div_le_one (by norm_num)]
      linarith
  simp only [border_white_ratio]
  exact key _ _ _ _ (frac_white_mem_unit _) (frac_white_mem_unit _)
    (frac_white_mem_unit _) (frac_white_mem_unit _)

/-- Witness for border_white_ratio_unit_interval at a concrete all-white
2 x 2 raster. -/
theorem border_white_ratio_unit_interval_witness :
    0 < tinyWhite.w ∧
    (0 ≤ border_white_ratio tinyWhite ∧ border_white_ratio tinyWhite ≤ 1) :=
  ⟨by decide, border_white_ratio_unit_interval tinyWhite (by decide) (by decide)⟩

/-- Helper: with the loop condition already false, any fuel returns the
best-so-far unchanged. -/
theorem searchLoop_exit (enc : Int → Nat) (limit : Nat) (fuel : Nat) (lo hi : Int)
    (best : Option Int) (hlh : ¬ lo ≤ hi) :
    searchLoop enc limit fuel lo hi best = best := by
  cases fuel <;> simp [searchLoop, hlh]

/-- Helper: invariant-based postcondition of the binary-search loop.
Everything above hi in the quality range is known over the limit, and the
best-so-far is the fitting quality just below lo; on exit this makes a
none result mean nothing in 35..95 fits, and a some result the greatest
fitting quality. -/
theorem searchLoop_post (enc : Int → Nat) (limit : Nat)
    (hmono : ∀ a b : Int, a ≤ b → enc a ≤ enc b) :
    ∀ fuel : Nat, ∀ lo hi : Int, ∀ best : Option Int,
      (hi + 1 - lo).toNat ≤ fuel → 35 ≤ lo → lo ≤ 96 → hi ≤ 95 →
      (∀ q : Int, hi < q → q ≤ 95 → limit < enc q) →
      (best = none → lo = 35) →
      (∀ b : Int, best = some b → 35 ≤ b ∧ b + 1 = lo ∧ enc b ≤ limit) →
      (searchLoop enc limit fuel lo hi best = none →
        ∀ q : Int, 35 ≤ q → q ≤ 95 → limit < enc q) ∧
      (∀ b : Int, searchLoop enc limit fuel lo hi best = some b →
        35 ≤ b ∧ b ≤ 95 ∧ enc b ≤ limit ∧ ∀ q : Int, b < q → q ≤ 95 → limit < enc q) := by
  intro fuel
  induction fuel with
  | zero =>
    intro lo hi best hfuel h35 h96 h95 hinv1 hn hs
    have hcross : hi < lo := by omega
    simp only [searchLoop]
    constructor
    · intro hnone q hq1 hq2
      have hlo : lo = 35 := hn hnone
      exact hinv1 q (by omega) hq2
    · intro b hb
      obtain ⟨hb1, hb2, hb3⟩ := hs b hb
      exact ⟨hb1, by omega, hb3, fun q hq1 hq2 => hinv1 q (by omega) hq2⟩
  | succ fuel ih =>
    intro lo hi best hfuel h35 h96 h95 hinv1 hn hs
    by_cases hlh : lo ≤ hi
    · have hq_lo : lo ≤ (lo + hi) / 2 := by omega
      have hq_hi : (lo + hi) / 2 ≤ hi := by omega
      by_cases he : enc ((lo + hi) / 2) ≤ limit
      · simp only [searchLoop, if_pos hlh, if_pos he]
        refine ih ((lo + hi) / 2 + 1) hi (some ((lo + hi) / 2)) (by omega) (by omega)
          (by omega) h95 hinv1 (fun hcon => Option.noConfusion hcon) ?_
        intro b hb
        injection hb with heq
        exact ⟨by omega, by omega, heq ▸ he⟩
      · simp only [searchLoop, if_pos hlh, if_neg he]
        refine ih lo ((lo + hi) / 2 - 1) best (by omega) h35 h96 (by omega) ?_ hn hs
        intro q hq1 hq2
        have hmq : enc ((lo + hi) / 2) ≤ enc q := hmono _ _ (by omega)
        omega
    · rw [searchLoop_exit enc limit _ _ _ _ hlh]
      have hcross : hi < lo := by omega
      constructor
      · intro hnone q hq1 hq2
        have hlo : lo = 35 := hn hnone
        exact hinv1 q (by omega) hq2
      · intro b hb
        obtain ⟨hb1, hb2, hb3⟩ := hs b hb
        exact ⟨hb1, by omega, hb3, fun q hq1 hq2 => hinv1 q (by omega) hq2⟩

/-- Claim C3: under a monotone encoder, jpg_under_size returns the
encoding at the largest quality in 35..95 whose byte size fits the
limit, and falls back to quality 35 when no quality fits (in which case
the result may exceed the limit). -/
theorem jpg_under_size_max_quality (enc : Int → Nat) (limit : Nat)
    (hmono : ∀ a b : Int, a ≤ b → enc a ≤ enc b) :
    (enc 35 ≤ limit →
      35 ≤ jpg_under_size_q enc limit ∧ jpg_under_size_q enc limit ≤ 95 ∧
      enc (jpg_under_size_q enc limit) ≤ limit ∧
      ∀ q : Int, 35 ≤ q → q ≤ 95 → enc q ≤ limit → q ≤ jpg_under_size_q enc limit) ∧
    (limit < enc 35 → jpg_under_size_q enc limit = 35) := by
  obtain ⟨hpn, hps⟩ := searchLoop_post enc limit hmono 61 35 95 none (by norm_num)
    (by norm_num) (by norm_num) (by norm_num)
    (fun q hq1 hq2 => by omega)
    (fun _ => rfl)
    (fun b hb => Option.noConfusion hb)
  cases hres : searchLoop enc limit 61 35 95 none with
  | none =>
    simp only [jpg_under_size_q, hres]
    constructor
    · intro h35
      exact absurd h35 (not_le.mpr (hpn hres 35 (by norm_num) (by norm_num)))
    · intro _
      trivial
  | some b =>
    obtain ⟨hb1, hb2, hb3, hmax⟩ := hps b hres
    simp only [jpg_under_size_q, hres]
    constructor
    · intro _
      refine ⟨hb1, hb2, hb3, ?_⟩
      intro q hq1 hq2 hqe
      by_contra hq
      exact absurd hqe (not_le.mpr (hmax q (by omega) hq2))
    · intro hlt
      have hmb : enc 35 ≤ enc b := hmono 35 b hb1
      omega

/-- Witness for jpg_under_size_max_quality with the constant zero-size
encoder and limit 0: every quality fits, so the search returns 95. -/
theorem jpg_under_size_max_quality_witness :
    (∀ a b : Int, a ≤ b → zeroEnc a ≤ zeroEnc b) ∧ jpg_under_size_q zeroEnc 0 = 95 := by
  have hmono : ∀ a b : Int, a ≤ b → zeroEnc a ≤ zeroEnc b := fun _ _ _ => le_refl 0
  refine ⟨hmono, ?_⟩
  have h := (jpg_under_size_max_quality zeroEnc 0 hmono).1 (le_refl 0)
  have h95 := h.2.2.2 95 (by norm_num) (by norm_num) (le_refl 0)
  omega

/-- Helper: once the fuel covers the size of the interval lo..hi, adding
fuel does not change the loop's result; every iteration strictly shrinks
the interval, so the loop needs at most that many iterations. -/
theorem searchLoop_stable (enc : Int → Nat) (limit : Nat) :
    ∀ f g : Nat, ∀ lo hi : Int, ∀ best : Option Int,
      (hi + 1 - lo).toNat ≤ f → (hi + 1 - lo).toNat ≤ g →
      searchLoop enc limit f lo hi best = searchLoop enc limit g lo hi best := by
  intro f
  induction f with
  | zero =>
    intro g lo hi best hf hg
    have hlh : ¬ lo ≤ hi := by omega
    rw [searchLoop_exit enc limit _ _ _ _ hlh, searchLoop_exit enc limit _ _ _ _ hlh]
  | succ f ih =>
    intro g lo hi best hf hg
    by_cases hlh : lo ≤ hi
    · obtain ⟨g', rfl⟩ : ∃ g', g = g' + 1 := ⟨g - 1, by omega⟩
      simp only [searchLoop, if_pos hlh]
      by_cases he : enc ((lo + hi) / 2) ≤ limit
      · rw [if_pos he, if_pos he]
        exact ih g' _ _ _ (by omega) (by omega)
      · rw [if_neg he, if_neg he]
        exact ih g' _ _ _ (by omega) (by omega)
    · rw [searchLoop_exit enc limit _ _ _ _ hlh, searchLoop_exit enc limit _ _ _ _ hlh]

/-- Helper: the loop only ever returns qualities drawn from the current
interval or the incoming best-so-far, all inside 35..95. -/
theorem searchLoop_range (enc : Int → Nat) (limit : Nat) :
    ∀ fuel : Nat, ∀ lo hi : Int, ∀ best : Option Int,
      35 ≤ lo → hi ≤ 95 →
      (∀ b : Int, best = some b → 35 ≤ b ∧ b ≤ 95) →
      ∀ b : Int, searchLoop enc limit fuel lo hi best = some b → 35 ≤ b ∧ b ≤ 95 := by
  intro fuel
  induction fuel with
  | zero =>
    intro lo hi best h35 h95 hbest b hb
    simp only [searchLoop] at hb
    exact hbest b hb
  | succ fuel ih =>
    intro lo hi best h35 h95 hbest b hb
    by_cases hlh : lo ≤ hi
    · simp only [searchLoop, if_pos hlh] at hb
      by_cases he : enc ((lo + hi) / 2) ≤ limit
      · rw [if_pos he] at hb
        refine ih _ _ _ (by omega) h95 ?_ b hb
        intro b' hb'
        injection hb' with heq
        omega
      · rw [if_neg he] at hb
        exact ih _ _ _ h35 (by omega) hbest b hb
    · rw [searchLoop_exit enc limit _ _ _ _ hlh] at hb
      exact hbest b hb

/-- Claim C9: the binary-search loop of jpg_under_size terminates within
the 61 iterations that the initial interval 35..95 allows, since every
iteration strictly shrinks the lo..hi interval: any fuel of at least 61
gives the same result as fuel 61, and the function always returns an
encoding, at some quality in 35..95. -/
theorem searchLoop_fuel_stability (enc : Int → Nat) (limit : Nat) (f : Nat) (hf : 61 ≤ f) :
    searchLoop enc limit f 35 95 none = searchLoop enc limit 61 35 95 none ∧
    35 ≤ jpg_under_size_q enc limit ∧ jpg_under_size_q enc limit ≤ 95 := by
  have hrange : 35 ≤ jpg_under_size_q enc limit ∧ jpg_under_size_q enc limit ≤ 95 := by
    cases hres : searchLoop enc limit 61 35 95 none with
    | none =>
      simp only [jpg_under_size_q, hres]
      norm_num
    | some b =>
      have hb := searchLoop_range enc limit 61 35 95 none (by norm_num) (by norm_num)
        (fun b' hb' => Option.noConfusion hb') b hres
      simp only [jpg_under_size_q, hres]
      exact hb
  exact ⟨searchLoop_stable enc limit f 61 35 95 none (by omega) (by omega), hrange.1, hrange.2⟩

/-- Witness for searchLoop_fuel_stability at fuel 75 with the constant
zero-size encoder. -/
theorem searchLoop_fuel_stability_witness :
    61 ≤ 75 ∧
    (searchLoop zeroEnc 0 75 35 95 none = searchLoop zeroEnc 0 61 35 95 none ∧
     35 ≤ jpg_under_size_q zeroEnc 0 ∧ jpg_under_size_q zeroEnc 0 ≤ 95) :=
  ⟨by norm_num, searchLoop_fuel_stability zeroEnc 0 75 (by norm_num)⟩

/-- Helper: every sample of a crop region is a pxGray value at
coordinates inside the region. -/
theorem mem_regionGrays (img : Raster) (l t r b : Int) (v : Nat)
    (hv : v ∈ regionGrays img l t r b) :
    ∃ x y : Int, l ≤ x ∧ x < r ∧ t ≤ y ∧ y < b ∧ pxGray img x y = v := by
  rw [regionGrays] at hv
  obtain ⟨dy, hdy, hvmem⟩ := List.mem_flatMap.mp hv
  obtain ⟨dx, hdx, hveq⟩ := List.mem_map.mp hvmem
  rw [List.mem_range] at hdy hdx
  exact ⟨l + (dx : Int), t + (dy : Int), by omega, by omega, by omega, by omega, hveq⟩

/-- Helper: a region with a positive extent in both directions has at
least its top-left sample. -/
theorem regionGrays_ne_nil (img : Raster) (l t r b : Int) (hlr : l < r) (htb : t < b) :
    regionGrays img l t r b ≠ [] := by
  have hm : pxGray img l t ∈ regionGrays img l t r b := by
    rw [regionGrays]
    refine List.mem_flatMap.mpr ⟨0, List.mem_range.mpr (by omega), ?_⟩
    exact List.mem_map.mpr ⟨0, List.mem_range.mpr (by omega), by simp⟩
  exact List.ne_nil_of_mem hm

/-- Helper: a pointwise property of pxGray over the region covers every
sample in the region list. -/
theorem regionGrays_all (img : Raster) (l t r b : Int) (P : Nat → Prop)
    (h : ∀ x y : Int, l ≤ x → x < r → t ≤ y → y < b → P (pxGray img x y)) :
    ∀ v ∈ regionGrays img l t r b, P v := by
  intro v hv
  obtain ⟨x, y, hx1, hx2, hy1, hy2, hveq⟩ := mem_regionGrays img l t r b v hv
  rw [← hveq]
  exact h x y hx1 hx2 hy1 hy2

/-- Helper: a nonempty all-white sample list has white fraction one. -/
theorem frac_white_one (xs : List Nat) (hne : xs ≠ [])
    (hall : ∀ v ∈ xs, WHITE_THRESHOLD ≤ v) : frac_white xs = 1 := by
  unfold frac_white
  have hlen : xs.length ≠ 0 := by simpa [List.length_eq_zero] using hne
  rw [if_neg hlen]
  have hcnt : (xs.countP fun v => decide (WHITE_THRESHOLD ≤ v)) = xs.length := by
    rw [List.countP_eq_length]
    intro a ha
    simpa using hall a ha
  rw [hcnt, div_self (by exact_mod_cast hlen)]

/-- Helper: an all-dark sample list has white fraction zero. -/
theorem frac_white_zero (xs : List Nat) (hall : ∀ v ∈ xs, v < WHITE_THRESHOLD) :
    frac_white xs = 0 := by
  unfold frac_white
  split_ifs with hlen
  · rfl
  · have hcnt : (xs.countP fun v => decide (WHITE_THRESHOLD ≤ v)) = 0 := by
      rw [List.countP_eq_zero]
      intro a ha
      simpa using Nat.not_le.mpr (hall a ha)
    rw [hcnt]
    simp

/-- Helper: the info dictionary's background flag is exactly the decision
of the minimum-white-fraction comparison. -/
theorem run_pipeline_background_ok (resample : Raster → Nat → Nat → Raster)
    (encSize : Raster → Int → Nat) (img : Raster) (rq : Bool) :
    (run_pipeline resample encSize img rq).2.background_ok =
      decide (BACKGROUND_MIN_WHITE ≤ border_white_ratio img) := rfl

/-- Claim C4: border_white_ratio is the mean over the four border strips
of the per-strip fraction of pixels at or above the white threshold, and
the pipeline accepts the background exactly when that mean reaches the
minimum white fraction; an all-white border yields ratio 1 with the
background accepted, an all-dark border yields ratio 0 with the
background rejected. -/
theorem border_white_ratio_extremes (resample : Raster → Nat → Nat → Raster)
    (encSize : Raster → Int → Nat) (img : Raster) (hw : 2 ≤ img.w) (hh : 2 ≤ img.h) :
    ((∀ x y : Nat, x < img.w → y < img.h →
        (x < border_b img.w img.h ∨ img.w ≤ x + border_b img.w img.h ∨
          y < border_b img.w img.h ∨ img.h ≤ y + border_b img.w img.h) →
        WHITE_THRESHOLD ≤ toGray (img.px x y)) →
      border_white_ratio img = 1 ∧
        (run_pipeline resample encSize img true).2.background_ok = true) ∧
    ((∀ x y : Nat, x < img.w → y < img.h →
        (x < border_b img.w img.h ∨ img.w ≤ x + border_b img.w img.h ∨
          y < border_b img.w img.h ∨ img.h ≤ y + border_b img.w img.h) →
        toGray (img.px x y) < WHITE_THRESHOLD) →
      border_white_ratio img = 0 ∧
        (run_pipeline resample encSize img true).2.background_ok = false) ∧
    ((run_pipeline resample encSize img true).2.background_ok = true ↔
      BACKGROUND_MIN_WHITE ≤ border_white_ratio img) := by
  have hble : border_b img.w img.h ≤ img.w ∧ border_b img.w img.h ≤ img.h ∧
      2 ≤ border_b img.w img.h := by
    simp only [border_b, BORDER_PIXELS]
    omega
  obtain ⟨hbw, hbh, hb2⟩ := hble
  refine ⟨?_, ?_, ?_⟩
  · intro H
    have hstrip : ∀ l t r b : Int,
        0 ≤ l → r ≤ (img.w : Int) → 0 ≤ t → b ≤ (img.h : Int) →
        (∀ x y : Int, l ≤ x → x < r → t ≤ y → y < b →
          (x.toNat < border_b img.w img.h ∨ img.w ≤ x.toNat + border_b img.w img.h ∨
            y.toNat < border_b img.w img.h ∨ img.h ≤ y.toNat + border_b img.w img.h)) →
        ∀ x y : Int, l ≤ x → x < r → t ≤ y → y < b →
          WHITE_THRESHOLD ≤ pxGray img x y := by
      intro l t r b hl hr ht hb hreg x y hx1 hx2 hy1 hy2
      have hcond : 0 ≤ x ∧ x < (img.w : Int) ∧ 0 ≤ y ∧ y < (img.h : Int) := by
        refine ⟨by omega, by omega, by omega, by omega⟩
      rw [pxGray, if_pos hcond]
      exact H x.toNat y.toNat (by omega) (by omega) (hreg x y hx1 hx2 hy1 hy2)
    have h1 : frac_white (regionGrays img 0 0 (img.w : Int)
        ((border_b img.w img.h : Nat) : Int)) = 1 := by
      refine frac_white_one _ (regionGrays_ne_nil _ _ _ _ _ (by omega) (by omega)) ?_
      refine regionGrays_all _ _ _ _ _ _ ?_
      exact hstrip 0 0 (img.w : Int) ((border_b img.w img.h : Nat) : Int)
        (by omega) (by omega) (by omega) (by omega)
        (fun x y hx1 hx2 hy1 hy2 => Or.inr (Or.inr (Or.inl (by omega))))
    have h2 : frac_white (regionGrays img 0
        ((img.h : Int) - ((border_b img.w img.h : Nat) : Int)) (img.w : Int)
        (img.h : Int)) = 1 := by
      refine frac_white_one _ (regionGrays_ne_nil _ _ _ _ _ (by omega) (by omega)) ?_
      refine regionGrays_all _ _ _ _ _ _ ?_
      exact hstrip 0 ((img.h : Int) - ((border_b img.w img.h : Nat) : Int)) (img.w : Int)
        (img.h : Int) (by omega) (by omega) (by omega) (by omega)
        (fun x y hx1 hx2 hy1 hy2 => Or.inr (Or.inr (Or.inr (by omega))))
    have h3 : frac_white (regionGrays img 0 0 ((border_b img.w img.h : Nat) : Int)
        (img.h : Int)) = 1 := by
      refine frac_white_one _ (regionGrays_ne_nil _ _ _ _ _ (by omega) (by omega)) ?_
      refine regionGrays_all _ _ _ _ _ _ ?_
      exact hstrip 0 0 ((border_b img.w img.h : Nat) : Int) (img.h : Int)
        (by omega) (by omega) (by omega) (by omega)
        (fun x y hx1 hx2 hy1 hy2 => Or.inl (by omega))
    have h4 : frac_white (regionGrays img
        ((img.w : Int) - ((border_b img.w img.h : Nat) : Int)) 0 (img.w : Int)
        (img.h : Int)) = 1 := by
      refine frac_white_one _ (regionGrays_ne_nil _ _ _ _ _ (by omega) (by omega)) ?_
      refine regionGrays_all _ _ _ _ _ _ ?_
      exact hstrip ((img.w : Int) - ((border_b img.w img.h : Nat) : Int)) 0 (img.w : Int)
        (img.h : Int) (by omega) (by omega) (by omega) (by omega)
        (fun x y hx1 hx2 hy1 hy2 => Or.inr (Or.inl (by omega)))
    have hratio : border_white_ratio img = 1 := by
      simp only [border_white_ratio, h1, h2, h3, h4]
      norm_num
    refine ⟨hratio, ?_⟩
    rw [run_pipeline_background_ok, hratio]
    simp only [decide_eq_true_eq]
    norm_num [BACKGROUND_MIN_WHITE]
  · intro H
    have hstrip : ∀ l t r b : Int,
        (∀ x y : Int, l ≤ x → x < r → t ≤ y → y < b →
          (0 ≤ x → x < (img.w : Int) → 0 ≤ y → y < (img.h : Int) →
            (x.toNat < border_b img.w img.h ∨ img.w ≤ x.toNat + border_b img.w img.h ∨
              y.toNat < border_b img.w img.h ∨ img.h ≤ y.toNat + border_b img.w img.h))) →
        ∀ x y : Int, l ≤ x → x < r → t ≤ y → y < b →
          pxGray img x y < WHITE_THRESHOLD := by
      intro l t r b hreg x y hx1 hx2 hy1 hy2
      rw [pxGray]
      split_ifs with hcond
      · obtain ⟨hc1, hc2, hc3, hc4⟩ := hcond
        exact H x.toNat y.toNat (by omega) (by omega)
          (hreg x y hx1 hx2 hy1 hy2 hc1 hc2 hc3 hc4)
      · simp [WHITE_THRESHOLD]
    have h1 : frac_white (regionGrays img 0 0 (img.w : Int)
        ((border_b img.w img.h : Nat) : Int)) = 0 := by
      refine frac_white_zero _ (regionGrays_all _ _ _ _ _ _ ?_)
      exact hstrip 0 0 (img.w : Int) ((border_b img.w img.h : Nat) : Int)
        (fun x y hx1 hx2 hy1 hy2 hc1 hc2 hc3 hc4 => Or.inr (Or.inr (Or.inl (by omega))))
    have h2 : frac_white (regionGrays img 0
        ((img.h : Int) - ((border_b img.w img.h : Nat) : Int)) (img.w : Int)
        (img.h : Int)) = 0 := by
      refine frac_white_zero _ (regionGrays_all _ _ _ _ _ _ ?_)
      exact hstrip 0 ((img.h : Int) - ((border_b img.w img.h : Nat) : Int)) (img.w : Int)
        (img.h : Int)
        (fun x y hx1 hx2 hy1 hy2 hc1 hc2 hc3 hc4 => Or.inr (Or.inr (Or.inr (by omega))))
    have h3 : frac_white (regionGrays img 0 0 ((border_b img.w img.h : Nat) : Int)
        (img.h : Int)) = 0 := by
      refine frac_white_zero _ (regionGrays_all _ _ _ _ _ _ ?_)
      exact hstrip 0 0 ((border_b img.w img.h : Nat) : Int) (img.h : Int)
        (fun x y hx1 hx2 hy1 hy2 hc1 hc2 hc3 hc4 => Or.inl (by omega))
    have h4 : frac_white (regionGrays img
        ((img.w : Int) - ((border_b img.w img.h : Nat) : Int)) 0 (img.w : Int)
        (img.h : Int)) = 0 := by
      refine frac_white_zero _ (regionGrays_all _ _ _ _ _ _ ?_)
      exact hstrip ((img.w : Int) - ((border_b img.w img.h : Nat) : Int)) 0 (img.w : Int)
        (img.h : Int)
        (fun x y hx1 hx2 hy1 hy2 hc1 hc2 hc3 hc4 => Or.inr (Or.inl (by omega)))
    have hratio : border_white_ratio img = 0 := by
      simp only [border_white_ratio, h1, h2, h3, h4]
      norm_num
    refine ⟨hratio, ?_⟩
    rw [run_pipeline_background_ok, hratio]
    simp only [decide_eq_false_iff_not]
    norm_num [BACKGROUND_MIN_WHITE]
  · rw [run_pipeline_background_ok]
    exact decide_eq_true_iff

/-- Witness for border_white_ratio_extremes at the concrete all-white
2 x 2 raster: its border is all white, so the ratio is 1 and the
background is accepted. -/
theorem border_white_ratio_extremes_witness :
    (2 ≤ tinyWhite.w ∧ 2 ≤ tinyWhite.h) ∧
    (border_white_ratio tinyWhite = 1 ∧
      (run_pipeline idResample overEnc tinyWhite true).2.background_ok = true) :=
  ⟨by decide,
   (border_white_ratio_extremes idResample overEnc tinyWhite (by decide) (by decide)).1
     (fun x y hx hy hb => by norm_num [tinyWhite, toGray, WHITE_THRESHOLD])⟩

/-- Claim C1 is false as stated: with an all-white raster and an encoder
that exceeds the byte budget at every quality (the BudgetUnattainable
case the spec itself envisages), /fix-photo returns ok false together
with an empty issue list, because unlike /validate it never appends the
synthesized fallback issue. -/
theorem fix_photo_empty_issue_rejection :
    (fix_photo idResample overEnc (some tinyWhite)).ok = false ∧
    (fix_photo idResample overEnc (some tinyWhite)).issues = [] := by
  have hr : border_white_ratio tinyWhite = 1 := by
    have hlist : regionGrays ⟨2, 2, fun _ _ => (255, 255, 255)⟩ 0 0 2 2 =
        [255, 255, 255, 255] := rfl
    have hfw : frac_white [255, 255, 255, 255] = 1 := by
      norm_num [frac_white, List.countP_cons, List.countP_nil, WHITE_THRESHOLD]
    norm_num [border_white_ratio, tinyWhite, border_b, BORDER_PIXELS, hlist, hfw]
  have hbg : decide (BACKGROUND_MIN_WHITE ≤ border_white_ratio tinyWhite) = true := by
    rw [hr]
    norm_num [BACKGROUND_MIN_WHITE]
  have hI0 : (run_pipeline idResample overEnc tinyWhite true).2.issues = [] := by
    have heq : (run_pipeline idResample overEnc tinyWhite true).2.issues =
        if true = true ∧
            decide (BACKGROUND_MIN_WHITE ≤ border_white_ratio tinyWhite) = false
          then [Issue.backgroundNotWhite] else [] := rfl
    rw [heq, hbg]
    simp
  have hL : (run_pipeline idResample overEnc tinyWhite true).1 = MAX_BYTES + 1 := rfl
  have hok : (fix_photo idResample overEnc (some tinyWhite)).ok =
      decide ((run_pipeline idResample overEnc tinyWhite true).2.issues = [] ∧
        (run_pipeline idResample overEnc tinyWhite true).1 ≤ MAX_BYTES) := rfl
  have hiss : (fix_photo idResample overEnc (some tinyWhite)).issues =
      (run_pipeline idResample overEnc tinyWhite true).2.issues := rfl
  constructor
  · rw [hok, hI0, hL]
    decide
  · rw [hiss, hI0]

/-- Claim C1 (amended): for both /validate and /fix-photo, the returned
ok flag is true exactly when the returned issue list is empty and the
returned byte count is within MAX_BYTES; for /validate additionally a
false ok always comes with a non-empty issue list (the synthesized
fallback issue), while /fix-photo lacks that synthesis and can reject
with an empty issue list (see the counterexample). -/
theorem approval_iff_issues_and_budget (resample : Raster → Nat → Nat → Raster)
    (encSize : Raster → Int → Nat) (decoded : Option Raster) (original_size : Nat) :
    ((validate resample encSize decoded original_size).ok = true ↔
      (validate resample encSize decoded original_size).issues = [] ∧
      (validate resample encSize decoded original_size).bytes ≤ MAX_BYTES) ∧
    ((fix_photo resample encSize decoded).ok = true ↔
      (fix_photo resample encSize decoded).issues = [] ∧
      (fix_photo resample encSize decoded).bytes ≤ MAX_BYTES) ∧
    ((validate resample encSize decoded original_size).ok = false →
      (validate resample encSize decoded original_size).issues ≠ []) := by
  cases decoded with
  | none => refine ⟨by simp [validate], by simp [fix_photo], by simp [validate]⟩
  | some img =>
    have hb : (run_pipeline resample encSize img true).2.bytes =
        (run_pipeline resample encSize img true).1 := rfl
    simp only [validate, fix_photo]
    rw [hb]
    by_cases horig : MAX_ORIGINAL_BYTES < original_size <;>
      by_cases h3 : (run_pipeline resample encSize img true).2.issues = [] <;>
        by_cases h2 : (run_pipeline resample encSize img true).1 ≤ MAX_BYTES <;>
          simp [horig, h3, h2]

/-- Claim C8: a failed decode makes both endpoints return ok false with
the single invalid-file issue and zero bytes before the pipeline runs;
with a successful decode the reported byte count always comes from the
full crop-resize-encode pipeline, and in particular a failed background
check only contributes an issue while the byte count is still reported. -/
theorem decode_failure_only_abort (resample : Raster → Nat → Nat → Raster)
    (encSize : Raster → Int → Nat) (original_size : Nat) :
    validate resample encSize none original_size = ⟨false, [Issue.invalidFile], 0⟩ ∧
    fix_photo resample encSize none = ⟨false, [Issue.invalidFile], 0⟩ ∧
    ∀ img : Raster,
      (validate resample encSize (some img) original_size).bytes =
        (run_pipeline resample encSize img true).1 ∧
      (fix_photo resample encSize (some img)).bytes =
        (run_pipeline resample encSize img true).1 ∧
      ((run_pipeline resample encSize img true).2.background_ok = false →
        Issue.backgroundNotWhite ∈
          (validate resample encSize (some img) original_size).issues ∧
        Issue.backgroundNotWhite ∈ (fix_photo resample encSize (some img)).issues) := by
  refine ⟨rfl, rfl, fun img => ⟨rfl, rfl, fun hbg => ?_⟩⟩
  have hI0 : (run_pipeline resample encSize img true).2.issues =
      [Issue.backgroundNotWhite] := by
    have heq : (run_pipeline resample encSize img true).2.issues =
        if true = true ∧
            decide (BACKGROUND_MIN_WHITE ≤ border_white_ratio img) = false
          then [Issue.backgroundNotWhite] else [] := rfl
    rw [run_pipeline_background_ok] at hbg
    rw [heq, if_pos ⟨rfl, hbg⟩]
  constructor
  · simp only [validate]
    rw [hI0]
    by_cases horig : MAX_ORIGINAL_BYTES < original_size <;> simp [horig]
  · simp only [fix_photo]
    simp [hI0]

end PhotoValidator
